import Mathlib

/-!
# Verification of the Celerity query-resolution engine

Shallow embedding of the query resolver, shortcut store, persistence and
import/export logic of the Celerity new-tab page (src/js/components/search.js,
the configuration file defining `CONFIG`/`COMMANDS`/`loadCommands`, and the
settings surface defining `createNewShortcut`, `saveEditedShortcut`,
`exportConfig`, `handleImportFile`).

JavaScript strings are modelled as Lean `String`s, with the handful of
JS string/regex primitives the source uses re-implemented structurally over
`List Char` so that every definition evaluates by kernel reduction.
-/

/-! ## JS string primitives -/

/-- Whitespace as trimmed by JS `String.prototype.trim` and matched by the
regex class `\s` (modelled for the ASCII whitespace the app can see). -/
def isWsChar (c : Char) : Bool :=
  c == ' ' || c == '\t' || c == '\n' || c == '\r'

/-- Characters of the trimmed string: drop whitespace at both ends. -/
def trimChars (cs : List Char) : List Char :=
  ((cs.dropWhile isWsChar).reverse.dropWhile isWsChar).reverse

/-- JS `s.trim()`. -/
def trimS (s : String) : String :=
  String.mk (trimChars s.data)

/-- JS `s.toLowerCase()` (ASCII). -/
def toLowerS (s : String) : String :=
  String.mk (s.data.map Char.toLower)

/-- JS `s.startsWith(p)`. -/
def startsWithS (p s : String) : Bool :=
  p.data.isPrefixOf s.data

/-- Split at the first occurrence of `delim`: returns the part before it and
the part after it, or `none` when `delim` does not occur. -/
def splitFirstAux (delim : List Char) : List Char → Option (List Char × List Char)
  | [] => none
  | c :: rest =>
    if delim.isPrefixOf (c :: rest) then some ([], (c :: rest).drop delim.length)
    else
      match splitFirstAux delim rest with
      | some (pre, post) => some (c :: pre, post)
      | none => none

/-- JS `s.split(new RegExp(delim + "(.*)"))` destructured into its first two
elements, for a delimiter with no regex metacharacters (the config uses the
literal delimiters `" "` and `"/"`) and a single-line input (the text input
cannot contain line breaks, so `(.*)` captures the whole remainder):
the part before the first occurrence of `delim` paired with `some` remainder,
or `(s, none)` when `delim` does not occur (JS yields `[s]`, so the
destructured remainder is `undefined`). -/
def splitFirstS (delim : String) (s : String) : String × Option String :=
  match splitFirstAux delim.data s.data with
  | some (pre, post) => (String.mk pre, some (String.mk post))
  | none => (s, none)

/-- Replacement for the literal regex `/{}/g`: every non-overlapping
occurrence of `{}` is replaced, scanning left to right. -/
def replaceBraces (repl : List Char) : List Char → List Char
  | '{' :: '}' :: rest => repl ++ replaceBraces repl rest
  | c :: rest => c :: replaceBraces repl rest
  | [] => []

/-- JS `p.replace(/{}/g, repl)`. -/
def replaceBracesS (p : String) (repl : String) : String :=
  String.mk (replaceBraces repl.data p.data)

/-! ## `encodeURIComponent` -/

/-- Characters `encodeURIComponent` leaves unescaped:
`A-Z a-z 0-9 - _ . ! ~ * ' ( )`. -/
def isUnreserved (c : Char) : Bool :=
  c.isAlpha || c.isDigit ||
    ['-', '_', '.', '!', '~', '*', Char.ofNat 39, '(', ')'].contains c

/-- Uppercase hex digit. -/
def hexDigit (n : Nat) : Char :=
  ['0', '1', '2', '3', '4', '5', '6', '7', '8', '9',
   'A', 'B', 'C', 'D', 'E', 'F'].getD n '0'

/-- The `%XX` percent-escape of one byte. -/
def percentByte (b : Nat) : List Char :=
  ['%', hexDigit (b / 16), hexDigit (b % 16)]

/-- UTF-8 bytes of a code point. -/
def utf8Bytes (n : Nat) : List Nat :=
  if n < 128 then [n]
  else if n < 2048 then [192 + n / 64, 128 + n % 64]
  else if n < 65536 then [224 + n / 4096, 128 + n / 64 % 64, 128 + n % 64]
  else [240 + n / 262144, 128 + n / 4096 % 64, 128 + n / 64 % 64, 128 + n % 64]

/-- One character of `encodeURIComponent` output. -/
def encodeChar (c : Char) : List Char :=
  if isUnreserved c then [c]
  else ((utf8Bytes c.toNat).map percentByte).flatten

/-- JS `encodeURIComponent(s)`. -/
def encodeURIComponent (s : String) : String :=
  String.mk ((s.data.map encodeChar).flatten)

/-! ## The two URL regexes of `search.js`

`isUrl`:  `/^((https?:\/\/)?[\w-]+(\.[\w-]+)+\.?(:\d+)?(\/\S*)?)$/i`
`hasProtocol`:  `/^[a-zA-Z]+:\/\//i`

Both are anchored, so a string matches iff it decomposes into the regex's
pieces; the decompositions are deterministic except for the optional scheme,
for which both alternatives are tried. -/

/-- The regex class `[\w-]`. -/
def isWordChar (c : Char) : Bool :=
  c.isAlpha || c.isDigit || c == '_' || c == '-'

/-- Split a character list on a separator character; keeps empty components,
so a trailing separator yields a trailing empty component. -/
def splitOnChar (sep : Char) : List Char → List (List Char)
  | [] => [[]]
  | x :: rest =>
    let r := splitOnChar sep rest
    if x == sep then [] :: r
    else
      match r with
      | h :: t => (x :: h) :: t
      | [] => [[x]]

/-- Host part `[\w-]+(\.[\w-]+)+\.?`: dot-separated non-empty labels of
word characters, at least two labels, one optional trailing dot. -/
def matchHost (cs : List Char) : Bool :=
  let comps := splitOnChar '.' cs
  let comps' := if comps.getLast? = some ([] : List Char) then comps.dropLast else comps
  decide (2 ≤ comps'.length) &&
    comps'.all (fun l => !l.isEmpty && l.all isWordChar)

/-- Port part `(:\d+)?` applied to what follows the host (which by
construction is empty or starts with `:`). -/
def matchPort : List Char → Bool
  | [] => true
  | ':' :: ds => !ds.isEmpty && ds.all Char.isDigit
  | _ => false

/-- Hostport part `[\w-]+(\.[\w-]+)+\.?(:\d+)?`: neither labels nor dots can contain `:`,
so the port necessarily starts at the first `:`. -/
def matchHostPort (cs : List Char) : Bool :=
  let host := cs.takeWhile (fun c => c != ':')
  matchHost host && matchPort (cs.drop host.length)

/-- Path part `(\/\S*)?`: empty, or `/` followed by non-whitespace. -/
def matchPath : List Char → Bool
  | [] => true
  | '/' :: rest => rest.all (fun c => !isWsChar c)
  | _ => false

/-- The regex body after the optional scheme: host and port cannot contain
`/`, so the path necessarily starts at the first `/`. -/
def matchBody (cs : List Char) : Bool :=
  let hostport := cs.takeWhile (fun c => c != '/')
  matchHostPort hostport && matchPath (cs.drop hostport.length)

/-- Both alternatives of `(https?:\/\/)?` (case-insensitive, `i` flag):
the string itself, and the string with a leading `https://` or `http://`
stripped when present. -/
def schemeCandidates (cs : List Char) : List (List Char) :=
  [cs]
    ++ (if ((cs.take 8).map Char.toLower) = "https://".data then [cs.drop 8] else [])
    ++ (if ((cs.take 7).map Char.toLower) = "http://".data then [cs.drop 7] else [])

/-- The `isUrl(s)` check of `search.js`. -/
def isUrl (s : String) : Bool :=
  (schemeCandidates s.data).any matchBody

/-- The `hasProtocol(s)` check of `search.js`: one or more letters followed by `://`.
Since neither `:` nor `/` is a letter, the letter run is necessarily the
maximal leading run. -/
def hasProtocol (s : String) : Bool :=
  let letters := s.data.takeWhile Char.isAlpha
  !letters.isEmpty && List.isPrefixOf "://".data (s.data.drop letters.length)

/-! ## Data model -/

/-- A command's `searchTemplate` is either a single template string or an
array of template strings. -/
inductive STemplate where
  | single (s : String)
  | multi (ss : List String)
deriving DecidableEq

/-- A `Command`: the value stored under a shortcut key in `COMMANDS`. -/
structure Command where
  name : String := ""
  url : String := ""
  searchTemplate : Option STemplate := none
  suggestions : Option (List String) := none
  command : Option String := none
deriving DecidableEq

/-- The `COMMANDS` map: key/value pairs in insertion order, unique keys. -/
abbrev Store := List (String × Command)

/-- Lookup `COMMANDS.get` / `COMMANDS.has`: first entry with the given key. -/
def lookupStore : Store → String → Option Command
  | [], _ => none
  | (k', v) :: rest, k => if k' = k then some v else lookupStore rest k

/-- Insertion `COMMANDS.set`: overwrite in place when the key exists (a JS `Map`
keeps the original insertion position), append otherwise. -/
def storeSet : Store → String → Command → Store
  | [], k, v => [(k, v)]
  | (k', v') :: rest, k, v =>
    if k' = k then (k, v) :: rest else (k', v') :: storeSet rest k v

/-- Deletion `COMMANDS.delete`. -/
def storeDelete : Store → String → Store
  | [], _ => []
  | (k', v') :: rest, k =>
    if k' = k then rest else (k', v') :: storeDelete rest k

/-- The configuration read by the resolver (`CONFIG`). -/
structure Env where
  commands : Store
  commandSearchDelimiter : String := " "
  commandPathDelimiter : String := "/"
  defaultSearchTemplate : String := "https://www.google.com/search?q={}"
deriving DecidableEq

/-- The resolver's result object (the fields `parseQuery` can return;
absent JS fields are `none`). -/
structure QueryResult where
  query : String
  key : Option String := none
  search : Option String := none
  splitBy : Option String := none
  path : Option String := none
  url : List String
  urlIsArray : Bool := false
  searchTemplate : Option STemplate := none
deriving DecidableEq

/-- The `url` field of a result: a single URL (`urlIsArray = false`,
singleton list) or a JS array of URLs. -/
def oneUrl (u : String) : List String := [u]

/-! ## `splitUrl` — model of the DOM anchor parser

`splitUrl` assigns `parser.href = url` and reads `protocol`, `hostname`,
`pathname`, `search`. Modelled here for absolute URLs (every URL the app
feeds it carries an explicit scheme): the scheme ends at the first `://`,
the authority at the first of `/ ? #`, and `hostname` is the authority up
to the first `:` — the anchor's `.hostname` excludes the port (`.host`
would include it). Scheme and hostname are lowercased by the parser, and
`pathname` is `/` when the URL has no path. -/
def splitUrl (url : String) : String × String :=
  match splitFirstAux "://".data url.data with
  | some (scheme, rest) =>
    let authority := rest.takeWhile (fun c => c != '/' && c != '?' && c != '#')
    let hostname := (authority.takeWhile (fun c => c != ':')).map Char.toLower
    let afterAuth := rest.drop authority.length
    let beforeHash := afterAuth.takeWhile (fun c => c != '#')
    let pathPart := beforeHash.takeWhile (fun c => c != '?')
    let queryPart := beforeHash.drop pathPart.length
    let pathname := if pathPart.isEmpty then ['/'] else pathPart
    (String.mk (scheme.map Char.toLower ++ "://".data ++ hostname),
     String.mk (pathname ++ queryPart))
  | none => (url, "")

/-! ## `formatSearchUrl` and `parseQuery` -/

/-- The function `formatSearchUrl(url, searchPath, search)`: `!searchPath` is true for a
missing template and for the empty string (but not for an array), in which
case the bare `url` is returned; otherwise the `{}` placeholders of each
template are replaced by the percent-encoded search text and the result is
appended to the origin of `url`. -/
def formatSearchUrl (url : String) (searchPath : Option STemplate)
    (search : String) : List String × Bool :=
  match searchPath with
  | none => ([url], false)
  | some (.single p) =>
    if p = "" then ([url], false)
    else ([(splitUrl url).1 ++ replaceBracesS p (encodeURIComponent search)], false)
  | some (.multi ps) =>
    (ps.map (fun p => (splitUrl url).1 ++ replaceBracesS p (encodeURIComponent search)), true)

/-- CASE 5 of `parseQuery`: default search over
`CONFIG.defaultSearchTemplate`. -/
def parseCase5 (env : Env) (query : String) : QueryResult :=
  let (baseUrl, rest) := splitUrl env.defaultSearchTemplate
  let (url, arr) := formatSearchUrl baseUrl (some (.single rest)) query
  { query := query, search := some query, url := url, urlIsArray := arr }

/-- CASE 4 of `parseQuery`: path-command syntax
(`COMMANDS.has(pathKey) && path`). -/
def parseCase4 (env : Env) (query : String) : QueryResult :=
  match splitFirstS env.commandPathDelimiter query with
  | (pathKey, some path) =>
    (match lookupStore env.commands pathKey with
     | some cmd =>
       if path = "" then parseCase5 env query
       else
         { query := query, key := some pathKey, path := some path,
           splitBy := some env.commandPathDelimiter,
           url := oneUrl ((splitUrl cmd.url).1 ++ "/" ++ path) }
     | none => parseCase5 env query)
  | (_, none) => parseCase5 env query

/-- CASE 3 of `parseQuery`: search-command syntax
(`COMMANDS.has(searchKey) && rawSearch`). -/
def parseCase3 (env : Env) (query : String) : QueryResult :=
  match splitFirstS env.commandSearchDelimiter query with
  | (searchKey, some rawSearch) =>
    (match lookupStore env.commands searchKey with
     | some cmd =>
       if rawSearch = "" then parseCase4 env query
       else
         let search := trimS rawSearch
         let (url, arr) := formatSearchUrl cmd.url cmd.searchTemplate search
         { query := query, key := some searchKey, search := some search,
           splitBy := some env.commandSearchDelimiter,
           url := url, urlIsArray := arr,
           searchTemplate := cmd.searchTemplate }
     | none => parseCase4 env query)
  | (_, none) => parseCase4 env query

/-- Does the CASE 3 guard of `parseQuery` fire on `query`? -/
def case3Fires (env : Env) (query : String) : Bool :=
  match splitFirstS env.commandSearchDelimiter query with
  | (sk, some rs) => (lookupStore env.commands sk).isSome && decide (rs ≠ "")
  | (_, none) => false

/-- The resolver `parseQuery(raw)` of `search.js`. The only recursion in the source is
CASE 2's `command` redirection (`return command ? this.parseQuery(command)
: ...`), which is unguarded there; the embedding makes the recursion
explicit with `fuel` and returns `none` exactly when the redirection chain
exhausts the fuel. All other cases return a result. -/
def parseQuery : Nat → Env → String → Option QueryResult
  | 0, _, _ => none
  | fuel + 1, env, raw =>
    let query := trimS raw
    -- CASE 1: direct URL entry
    if isUrl query then
      some { query := query,
             url := oneUrl (if hasProtocol query then query else "https://" ++ query) }
    else
      -- CASE 2: exact command match (with `command` redirection). The source
      -- destructures `key` from the stored command object; no command the app
      -- defines or creates carries a `key` property, so the destructured value
      -- is `undefined` and the result's `key` field stays absent (`none`).
      match lookupStore env.commands query with
      | some cmd =>
        (match cmd.command with
         | some c => parseQuery fuel env c
         | none => some { query := query, url := oneUrl cmd.url })
      | none => some (parseCase3 env query)

/-! ## The built-in `COMMANDS` and `CONFIG` defaults -/

/-- The built-in default command set (`const COMMANDS = new Map([...])`). -/
def defaultCommands : Store :=
  [("g", { name := "Gmail", url := "https://mail.google.com/mail/u/0/#inbox" }),
   ("y", { name := "YouTube", searchTemplate := some (.single "/results?search_query={}"),
           suggestions := some ["y/feed/subscriptions"], url := "https://youtube.com/" }),
   ("m", { name := "Metabase",
           url := "https://metabase.hyperiondev.com/dashboard/157-my-dashboard" }),
   ("d", { name := "Dropbox", url := "https://www.dropbox.com/work",
           searchTemplate := some (.single "/search/work?path=%2F&query={}") }),
   ("a", { name := "Chat", searchTemplate := some (.single "/?q={}"),
           url := "https://chat.openai.com/chat" }),
   ("n", { name := "Netflix", url := "https://www.netflix.com/browse" }),
   ("c", { name := "Cogrammer",
           suggestions := some ["c/reviewer/completed/", "c/reviewer/returned_reviews/"],
           url := "https://hyperiondev.cogrammar.com/" }),
   ("l", { name := "Localhost", url := "http://localhost:3000" }),
   ("gh", { name := "GitHub", url := "https://github.com/",
            searchTemplate := some (.single "/search?q={}") }),
   ("k", { name := "Knowledge",
           url := "https://sites.google.com/hyperiondev.com/hyperiondev-kb/home?authuser=0" }),
   ("r", { name := "Reddit",
           suggestions := some ["r/r/webdev", "r/r/learnprogramming", "r/r/gamedev",
                                "r/r/LifeProTips/"],
           url := "https://reddit.com" }),
   ("s", { name := "Spotify", searchTemplate := some (.single "/search/{}"),
           url := "https://open.spotify.com" })]

/-- The default environment: built-in commands, default delimiters, Google
as the default search engine (`CONFIG` after `init()` on first run). -/
def defaultEnv : Env :=
  { commands := defaultCommands }


/-! ## Shortcut creation and editing (settings surface) -/

/-- The three text fields of a shortcut form, as raw input values. -/
structure EditInputs where
  key : String
  name : String
  value : String
deriving DecidableEq

/-- Prefix a value that carries no `http(s)://` scheme with `https://`. -/
def addHttpsIfMissing (v : String) : String :=
  if startsWithS "http://" v || startsWithS "https://" v then v
  else "https://" ++ v

/-- The `createNewShortcut` operation of the settings surface, as a pure function:
`some store'` when the shortcut is created (and `saveCommands()` persists
`store'`), `none` when the operation is rejected and nothing is mutated.
`confirmOverride` is the user's answer to the override confirmation.

Mirrors the source faithfully: the trimmed `newKey`/`newName` are computed
there but the validity check tests the raw field values for truthiness
(`if (newKeyInput.value && newNameInput.value && newValueInput.value)`),
and the entry is stored under the raw key with the raw name
(`COMMANDS.set(newKeyInput.value, { name: newNameInput.value, url: newValue })`);
only the URL uses the trimmed, scheme-prefixed value. -/
def createNewShortcut (store : Store) (inp : EditInputs)
    (confirmOverride : Bool) : Option Store :=
  let newValue0 := trimS inp.value
  if inp.key ≠ "" ∧ inp.name ≠ "" ∧ inp.value ≠ "" then
    let newValue := addHttpsIfMissing newValue0
    if (lookupStore store inp.key).isSome ∧ ¬confirmOverride then none
    else some (storeSet store inp.key { name := inp.name, url := newValue })
  else none

/-- The `saveEditedShortcut` operation of the settings surface, editing the entry that
was stored under `oldKey` with value `oldValue`: `some store'` when the
edit is saved (and persisted), `none` when it is rejected with no
mutation. Here the source checks the trimmed values
(`if (!newKey || !newName || !newValue) return false`). -/
def saveEditedShortcut (store : Store) (oldKey : String) (oldValue : Command)
    (inp : EditInputs) (confirmOverride : Bool) : Option Store :=
  let newKey := trimS inp.key
  let newName := trimS inp.name
  let newValue0 := trimS inp.value
  if newKey = "" ∨ newName = "" ∨ newValue0 = "" then none
  else
    let newValue := addHttpsIfMissing newValue0
    if newKey ≠ oldKey ∧ (lookupStore store newKey).isSome ∧ ¬confirmOverride then
      none
    else
      let store1 := if newKey ≠ oldKey then storeDelete store oldKey else store
      some (storeSet store1 newKey { oldValue with name := newName, url := newValue })

/-! ## `loadCommands` (persistence) -/

/-- The searchTemplate migrations `loadCommands` applies to entries saved
by older versions: key `d` first, then key `gh`, each only when the entry
still lacks a `searchTemplate`. -/
def migrateEntry (kv : String × Command) : String × Command :=
  let v1 := if kv.1 = "d" ∧ kv.2.searchTemplate = none then
      { kv.2 with searchTemplate := some (.single "/search/work?path=%2F&query={}") }
    else kv.2
  let v2 := if kv.1 = "gh" ∧ v1.searchTemplate = none then
      { v1 with searchTemplate := some (.single "/search?q={}") }
    else v1
  (kv.1, v2)

/-- Does an entry trigger the `updated = true` flag of `loadCommands`? -/
def needsMigration (kv : String × Command) : Bool :=
  (kv.1 = "d" ∧ kv.2.searchTemplate = none) ∨
    (kv.1 = "gh" ∧ kv.2.searchTemplate = none)

/-- The fixed search template `loadCommands` adds for key `d` resp. `gh`. -/
def migrationTemplate (k : String) : String :=
  if k = "d" then "/search/work?path=%2F&query={}" else "/search?q={}"

/-- The `loadCommands()` operation, as a pure function of the persisted string
(`localStorage.getItem("commands")`, `none` when absent), a parse function
modelling `JSON.parse` followed by `Object.entries` — `none` models a
thrown parse error, and a returned entry list is the parsed object's
entries in JS enumeration order — and the current in-memory store.
Returns the store after the call and the document written back to storage
(`none` when nothing is written).

Control flow of the source: `if (!commandsStr) return` handles the absent
and empty cases; `JSON.parse` throws *before* `COMMANDS.clear()` is
reached, so a malformed document leaves the store untouched and the error
is only logged; on a successful parse the store is cleared and rebuilt
from the document's entries in order, with the `d`/`gh` template
migrations applied, and the (in-place migrated) document is saved back
exactly when some entry was migrated. -/
def loadCommands (commandsStr : Option String)
    (parse : String → Option (List (String × Command)))
    (store : Store) : Store × Option Store :=
  match commandsStr with
  | none => (store, none)
  | some s =>
    if s = "" then (store, none)
    else
      match parse s with
      | none => (store, none)
      | some entries =>
        let migrated := entries.map migrateEntry
        (migrated, if entries.any needsMigration then some migrated else none)

/-! ## Export / import of the configuration snapshot -/

/-- The application state visible to `exportConfig`/`handleImportFile`:
the three persisted scalar entries (`none` models an absent localStorage
key), the command store, and the parts of `CONFIG` they touch. -/
structure AppState where
  lsTheme : Option String
  lsTab : Option String
  lsEngine : Option String
  commands : Store
  openLinksInNewTab : Bool
  defaultSearchEngine : String
  defaultSearchTemplate : Option String
deriving DecidableEq

/-- The export/import document `{ theme, tabBehavior, searchEngine,
commands }`. -/
structure Snapshot where
  theme : String
  tabBehavior : String
  searchEngine : String
  commands : Store
deriving DecidableEq

/-- The table `CONFIG.searchEngineTemplates[k]` (`none` models `undefined`). -/
def searchEngineTemplates (k : String) : Option String :=
  if k = "google" then some "https://www.google.com/search?q={}"
  else if k = "duckduckgo" then some "https://duckduckgo.com/?q={}"
  else none

/-- Value of a string of decimal digits. -/
def decimalValue (cs : List Char) : Nat :=
  cs.foldl (fun acc c => acc * 10 + (c.toNat - 48)) 0

/-- Is a string a canonical array-index key in the sense of the JS object
model: the canonical decimal representation (no sign, no leading zero
except `"0"` itself) of an integer below `2^32 - 1`? Such keys enumerate
before all other string keys. -/
def isCanonicalIndexKey (s : String) : Bool :=
  let cs := s.data
  !cs.isEmpty && cs.all Char.isDigit &&
    (s = "0" || cs.headD '0' != '0') &&
    decide (decimalValue cs < 4294967295)

/-- Insert one index-keyed entry into a list sorted ascending by numeric
key value (keys are unique, so ties cannot occur). -/
def insertIndexEntry (kv : String × Command) :
    List (String × Command) → List (String × Command)
  | [] => [kv]
  | kv' :: rest =>
    if decimalValue kv.1.data < decimalValue kv'.1.data then kv :: kv' :: rest
    else kv' :: insertIndexEntry kv rest

/-- Sort index-keyed entries ascending by numeric key value. -/
def sortIndexEntries : List (String × Command) → List (String × Command)
  | [] => []
  | kv :: rest => insertIndexEntry kv (sortIndexEntries rest)

/-- The own-property enumeration order of a JS object built by inserting
`entries` in list order (`OrdinaryOwnPropertyKeys`): integer-like keys
(canonical array indices) first, in ascending numeric order, then the
remaining string keys in insertion order. This is the order produced by
`Object.fromEntries`, preserved by `JSON.stringify`/`JSON.parse`, and
observed by `Object.entries`. -/
def jsObjectEntries (entries : List (String × Command)) : List (String × Command) :=
  sortIndexEntries (entries.filter (fun kv => isCanonicalIndexKey kv.1))
    ++ entries.filter (fun kv => !isCanonicalIndexKey kv.1)

/-- The `exportConfig()` operation: each scalar falls back to a default when the
localStorage entry is absent (`|| "dark"`, `|| "current"`, `|| "google"`);
the commands are exported as `Object.fromEntries(COMMANDS)`, whose object
property order puts integer-like keys first in ascending numeric order
and the remaining keys in `Map` insertion order. -/
def exportConfig (st : AppState) : Snapshot :=
  { theme := st.lsTheme.getD "dark",
    tabBehavior := st.lsTab.getD "current",
    searchEngine := st.lsEngine.getD "google",
    commands := jsObjectEntries st.commands }

/-- The theme names `handleImportFile` accepts. -/
def validThemes : List String :=
  ["system", "dark", "light", "void", "dark-abyss"]

/-- The `handleImportFile` operation after the user confirms, applied to a successfully
parsed document (the settings object): theme, tab behavior and search
engine are each applied when truthy (non-empty), with the theme clamped to
`validThemes` (anything else becomes `"system"`) and `"dark-abyss"`
normalized to `"void"`; the commands object replaces the store wholesale
and is persisted. The replacement iterates
`Object.entries(settings.commands)`, which enumerates the parsed object's
properties with integer-like keys first in ascending numeric order, then
the rest in document order — `jsObjectEntries` of the document's entry
list. DOM updates and the success dialog are presentation. -/
def handleImportFile (st : AppState) (doc : Snapshot) : AppState :=
  let st1 :=
    if doc.theme ≠ "" then
      let safeTheme := if validThemes.contains doc.theme then doc.theme else "system"
      let normalized := if safeTheme = "dark-abyss" then "void" else safeTheme
      { st with lsTheme := some normalized }
    else st
  let st2 :=
    if doc.tabBehavior ≠ "" then
      { st1 with lsTab := some doc.tabBehavior,
                 openLinksInNewTab := doc.tabBehavior = "new" }
    else st1
  let st3 :=
    if doc.searchEngine ≠ "" then
      { st2 with lsEngine := some doc.searchEngine,
                 defaultSearchEngine := doc.searchEngine,
                 defaultSearchTemplate := searchEngineTemplates doc.searchEngine }
    else st2
  { st3 with commands := jsObjectEntries doc.commands }

/-! ## Suggestion filtering (`fetchDuckDuckGoSuggestions`) -/

/-- The collection loop of `fetchDuckDuckGoSuggestions`: each external
item's phrase is pushed unless
`item.phrase === search.toLowerCase()` (`continue`). -/
def collectSuggestions (search : String) : List String → List String
  | [] => []
  | phrase :: rest =>
    if phrase = toLowerS search then collectSuggestions search rest
    else phrase :: collectSuggestions search rest

/-! ## Termination of `command` redirection -/

/-- Resolution of `raw` terminates: some amount of fuel suffices for
`parseQuery` to return a result. Since fuel is consumed exactly at the
`command`-redirection recursion, this says the source's unguarded
recursion reaches an action descriptor in finitely many steps. -/
def Terminates (env : Env) (raw : String) : Prop :=
  ∃ fuel, (parseQuery fuel env raw).isSome = true

/-- The redirection chain starting at `raw` exits within `n` steps: some
query along the chain is URL-like, unknown, or maps to a command without a
`command` field — the three ways `parseQuery` stops recursing. -/
def chainExitsFrom (env : Env) : Nat → String → Bool
  | 0, _ => false
  | n + 1, raw =>
    let query := trimS raw
    if isUrl query then true
    else
      match lookupStore env.commands query with
      | some cmd =>
        (match cmd.command with
         | some t => chainExitsFrom env n t
         | none => true)
      | none => true

/-- A store whose `command` redirections form a two-cycle. -/
def cycEnv : Env :=
  { commands := [("a", { name := "AliasA", url := "https://a.example", command := some "b" }),
                 ("b", { name := "AliasB", url := "https://b.example", command := some "a" })] }

/-- A store extending the defaults with one redirection alias whose chain
terminates: `x` redirects to the built-in `g`. -/
def aliasEnv : Env :=
  { commands := ("x", { name := "X", url := "https://x.example", command := some "g" })
      :: defaultCommands }

/-- The first-run application state: nothing persisted yet, `CONFIG` at its
defaults (`openLinksInNewTab` is `true` when no `tabBehavior` entry
exists), store at the built-in commands. -/
def freshAppState : AppState :=
  { lsTheme := none, lsTab := none, lsEngine := none,
    commands := defaultCommands,
    openLinksInNewTab := true,
    defaultSearchEngine := "google",
    defaultSearchTemplate := some "https://www.google.com/search?q={}" }

/-- A fully persisted application state with standard values, coherent with
`CONFIG.init()`. -/
def richAppState : AppState :=
  { lsTheme := some "void", lsTab := some "new", lsEngine := some "duckduckgo",
    commands := defaultCommands,
    openLinksInNewTab := true,
    defaultSearchEngine := "duckduckgo",
    defaultSearchTemplate := some "https://duckduckgo.com/?q={}" }

/-! ## Helper lemmas -/

/-- When the CASE 3 guard does not fire, CASE 3 falls through to CASE 4. -/
theorem parseCase3_of_not_fires (env : Env) (q : String)
    (h : case3Fires env q = false) : parseCase3 env q = parseCase4 env q := by
  unfold case3Fires at h
  unfold parseCase3
  rcases hs : splitFirstS env.commandSearchDelimiter q with ⟨sk, rs?⟩
  rw [hs] at h
  rcases rs? with _ | rs
  · simp
  · have h' : (lookupStore env.commands sk).isSome = true → rs = "" := by
      simpa using h
    rcases hl : lookupStore env.commands sk with _ | cmd
    · simp [hl]
    · have hrs : rs = "" := h' (by rw [hl]; rfl)
      subst hrs
      simp [hl]

/-- Resolution of a query that reaches CASE 4 with a known key and a
non-empty path: the result is the origin of the command's base URL, a
slash, and the path verbatim. -/
theorem parseQuery_path_generic (env : Env) (fuel : Nat) (k r : String)
    (cmd : Command)
    (htrim : trimS (k ++ env.commandPathDelimiter ++ r) = k ++ env.commandPathDelimiter ++ r)
    (hurl : isUrl (k ++ env.commandPathDelimiter ++ r) = false)
    (hexact : lookupStore env.commands (k ++ env.commandPathDelimiter ++ r) = none)
    (h3 : case3Fires env (k ++ env.commandPathDelimiter ++ r) = false)
    (hsplit : splitFirstS env.commandPathDelimiter (k ++ env.commandPathDelimiter ++ r)
      = (k, some r))
    (hk : lookupStore env.commands k = some cmd)
    (hr : r ≠ "") :
    parseQuery (fuel + 1) env (k ++ env.commandPathDelimiter ++ r) =
      some { query := k ++ env.commandPathDelimiter ++ r,
             key := some k, path := some r,
             splitBy := some env.commandPathDelimiter,
             url := oneUrl ((splitUrl cmd.url).1 ++ "/" ++ r) } := by
  simp only [parseQuery, htrim, hurl, Bool.false_eq_true, if_false, hexact,
    parseCase3_of_not_fires env _ h3]
  unfold parseCase4
  rw [hsplit]
  simp [hk, hr]

/-! ## Claim theorems -/

/-- C1: for every trimmed input matching the permissive URL pattern,
`parseQuery` treats it as a literal destination — the exact input when a
scheme is present, `https://` prepended otherwise — and this CASE 1 result
is independent of the store and configuration, so it wins over every other
resolution case. -/
theorem c1_direct_url (raw : String) (env : Env) (fuel : Nat)
    (h : isUrl (trimS raw) = true) :
    parseQuery (fuel + 1) env raw =
      some { query := trimS raw,
             url := oneUrl (if hasProtocol (trimS raw) then trimS raw
                            else "https://" ++ trimS raw) } := by
  simp [parseQuery, h]

/-- Witness for C1 at a URL with scheme and at a bare host. -/
theorem c1_direct_url_witness :
    (isUrl (trimS "https://example.com/x") = true ∧
      parseQuery 1 defaultEnv "https://example.com/x" =
        some { query := "https://example.com/x", url := oneUrl "https://example.com/x" }) ∧
    (isUrl (trimS "example.com") = true ∧
      parseQuery 1 defaultEnv "example.com" =
        some { query := "example.com", url := oneUrl "https://example.com" }) :=
  ⟨⟨by decide, (c1_direct_url "https://example.com/x" defaultEnv 0 (by decide)).trans (by decide)⟩,
   ⟨by decide, (c1_direct_url "example.com" defaultEnv 0 (by decide)).trans (by decide)⟩⟩

/-- C2: a query of the form key + search-delimiter + non-empty remainder,
whose key is known and carries a (single, non-empty) search template,
resolves to the origin of the command's base URL followed by the template
with its `{}` placeholders replaced by the percent-encoded trimmed
remainder. The hypotheses state that the query is trimmed, is not
URL-like, is not itself a key, and splits at the delimiter into the key
and the remainder (the key contains no delimiter). -/
theorem c2_search_command (env : Env) (fuel : Nat) (k r tmpl : String)
    (cmd : Command)
    (htrim : trimS (k ++ env.commandSearchDelimiter ++ r) = k ++ env.commandSearchDelimiter ++ r)
    (hurl : isUrl (k ++ env.commandSearchDelimiter ++ r) = false)
    (hexact : lookupStore env.commands (k ++ env.commandSearchDelimiter ++ r) = none)
    (hsplit : splitFirstS env.commandSearchDelimiter (k ++ env.commandSearchDelimiter ++ r)
      = (k, some r))
    (hk : lookupStore env.commands k = some cmd)
    (ht : cmd.searchTemplate = some (.single tmpl))
    (hr : r ≠ "") (htm : tmpl ≠ "") :
    parseQuery (fuel + 1) env (k ++ env.commandSearchDelimiter ++ r) =
      some { query := k ++ env.commandSearchDelimiter ++ r,
             key := some k, search := some (trimS r),
             splitBy := some env.commandSearchDelimiter,
             url := oneUrl ((splitUrl cmd.url).1
               ++ replaceBracesS tmpl (encodeURIComponent (trimS r))),
             searchTemplate := some (.single tmpl) } := by
  simp only [parseQuery, htrim, hurl, Bool.false_eq_true, if_false, hexact]
  unfold parseCase3
  rw [hsplit]
  simp [hk, hr, ht, formatSearchUrl, htm, oneUrl]

/-- Witness for C2: `resolve("y cats")` over the built-in store. -/
theorem c2_search_command_witness :
    parseQuery 1 defaultEnv "y cats" =
      some { query := "y cats", key := some "y", search := some "cats",
             splitBy := some " ",
             url := oneUrl "https://youtube.com/results?search_query=cats",
             searchTemplate := some (.single "/results?search_query={}") } :=
  (c2_search_command defaultEnv 0 "y" "cats" "/results?search_query={}"
      { name := "YouTube", searchTemplate := some (.single "/results?search_query={}"),
        suggestions := some ["y/feed/subscriptions"], url := "https://youtube.com/" }
      (by decide) (by decide) (by decide) (by decide) (by decide) rfl
      (by decide) (by decide)).trans (by decide)

/-- C3: a query of the form key + path-delimiter + non-empty remainder,
whose key is known, that reaches CASE 4 (it is trimmed, not URL-like, not
itself a key, and the CASE 3 guard does not fire), resolves to the origin
of the command's base URL, `/`, and the remainder verbatim. -/
theorem c3_path_command (env : Env) (fuel : Nat) (k r : String) (cmd : Command)
    (htrim : trimS (k ++ env.commandPathDelimiter ++ r) = k ++ env.commandPathDelimiter ++ r)
    (hurl : isUrl (k ++ env.commandPathDelimiter ++ r) = false)
    (hexact : lookupStore env.commands (k ++ env.commandPathDelimiter ++ r) = none)
    (h3 : case3Fires env (k ++ env.commandPathDelimiter ++ r) = false)
    (hsplit : splitFirstS env.commandPathDelimiter (k ++ env.commandPathDelimiter ++ r)
      = (k, some r))
    (hk : lookupStore env.commands k = some cmd)
    (hr : r ≠ "") :
    parseQuery (fuel + 1) env (k ++ env.commandPathDelimiter ++ r) =
      some { query := k ++ env.commandPathDelimiter ++ r,
             key := some k, path := some r,
             splitBy := some env.commandPathDelimiter,
             url := oneUrl ((splitUrl cmd.url).1 ++ "/" ++ r) } :=
  parseQuery_path_generic env fuel k r cmd htrim hurl hexact h3 hsplit hk hr

/-- Witness for C3: `resolve("y/feed/subscriptions")` over the built-in
store. -/
theorem c3_path_command_witness :
    parseQuery 1 defaultEnv "y/feed/subscriptions" =
      some { query := "y/feed/subscriptions", key := some "y",
             path := some "feed/subscriptions", splitBy := some "/",
             url := oneUrl "https://youtube.com/feed/subscriptions" } :=
  (c3_path_command defaultEnv 0 "y" "feed/subscriptions"
      { name := "YouTube", searchTemplate := some (.single "/results?search_query={}"),
        suggestions := some ["y/feed/subscriptions"], url := "https://youtube.com/" }
      (by decide) (by decide) (by decide) (by decide) (by decide) (by decide)
      (by decide)).trans (by decide)

/-- C4 counterexample: the origin used as the base for URL construction is
NOT `scheme://host` as literally present — `splitUrl` reads the anchor's
`.hostname`, which excludes the port. For the built-in base URL
`http://localhost:3000` the computed origin is `http://localhost`, and the
path command `l/dashboard` resolves to `http://localhost/dashboard`, not
`http://localhost:3000/dashboard` as the claim predicts. -/
theorem c4_origin_counterexample :
    (splitUrl "http://localhost:3000").1 = "http://localhost" ∧
    "http://localhost" ≠ "http://localhost:3000" ∧
    parseQuery 1 defaultEnv "l/dashboard" =
      some { query := "l/dashboard", key := some "l", path := some "dashboard",
             splitBy := some "/", url := oneUrl "http://localhost/dashboard" } := by
  refine ⟨by decide, by decide, ?_⟩
  decide

/-- C4 amended: the origin is `scheme://hostname` as produced by the URL
parser — lowercased scheme and host with any explicit port dropped — so a
path command over the base `http://localhost:3000` yields
`http://localhost/<remainder>` for every non-empty remainder (stated for
remainders free of whitespace, which is what keeps the query trimmed and
out of the earlier cases). -/
theorem c4_origin_drops_port_amended (fuel : Nat) (r : String)
    (hr : r ≠ "")
    (htrim : trimS ("l/" ++ r) = "l/" ++ r)
    (h3 : case3Fires defaultEnv ("l/" ++ r) = false) :
    parseQuery (fuel + 1) defaultEnv ("l/" ++ r) =
      some { query := "l/" ++ r, key := some "l", path := some r,
             splitBy := some "/", url := oneUrl ("http://localhost/" ++ r) } := by
  obtain ⟨rd⟩ := r
  have happ : "l" ++ defaultEnv.commandPathDelimiter ++ String.mk rd = "l/" ++ String.mk rd := rfl
  have hurl : isUrl ("l/" ++ String.mk rd) = false := rfl
  have hexact : lookupStore defaultEnv.commands ("l/" ++ String.mk rd) = none := rfl
  have hsplit : splitFirstS defaultEnv.commandPathDelimiter ("l/" ++ String.mk rd)
      = ("l", some (String.mk rd)) := by
    have hd : ("l/" ++ String.mk rd).data = 'l' :: '/' :: rd := rfl
    have hdelim : defaultEnv.commandPathDelimiter.data = ['/'] := rfl
    simp only [splitFirstS, hd, hdelim]
    simp [splitFirstAux, List.isPrefixOf]
  have hk : lookupStore defaultEnv.commands "l" =
      some { name := "Localhost", url := "http://localhost:3000" } := rfl
  have := parseQuery_path_generic defaultEnv fuel "l" (String.mk rd)
    { name := "Localhost", url := "http://localhost:3000" }
    (happ ▸ htrim) (happ ▸ hurl) (happ ▸ hexact) (happ ▸ h3) (happ ▸ hsplit) hk hr
  rw [happ] at this
  rw [this]
  rfl

/-- Witness for the amended C4 at the remainder `notes`. -/
theorem c4_origin_drops_port_witness :
    parseQuery 1 defaultEnv "l/notes" =
      some { query := "l/notes", key := some "l", path := some "notes",
             splitBy := some "/", url := oneUrl "http://localhost/notes" } :=
  c4_origin_drops_port_amended 0 "notes" (by decide) (by decide) (by decide)

/-- C5 counterexample: with a store whose `command` redirections form a
cycle (`a` → `b` → `a`), resolution of `"a"` does not terminate: no amount
of fuel makes `parseQuery` return a result, mirroring the source's
unbounded recursion `return command ? this.parseQuery(command) : ...`. -/
theorem c5_cycle_counterexample : Terminates cycEnv "a" = False := by
  have step_a : ∀ n, parseQuery (n + 1) cycEnv "a" = parseQuery n cycEnv "b" :=
    fun n => rfl
  have step_b : ∀ n, parseQuery (n + 1) cycEnv "b" = parseQuery n cycEnv "a" :=
    fun n => rfl
  have aux : ∀ n, parseQuery n cycEnv "a" = none ∧ parseQuery n cycEnv "b" = none := by
    intro n
    induction n with
    | zero => exact ⟨rfl, rfl⟩
    | succ n ih => exact ⟨(step_a n).trans ih.2, (step_b n).trans ih.1⟩
  apply eq_false
  rintro ⟨fuel, h⟩
  rw [(aux fuel).1] at h
  simp at h

/-- C5 amended: resolution terminates exactly for the inputs whose
redirection chain exits — reaches a URL-like query, an unknown key, or a
command without a `command` field — in finitely many steps; in particular
it terminates for every store whose redirections are cycle-free from the
input, but not for redirection cycles (see the counterexample). -/
theorem c5_redirection_terminates_amended (env : Env) (raw : String) (n : Nat)
    (h : chainExitsFrom env n raw = true) : Terminates env raw := by
  suffices h' : ∀ m r, chainExitsFrom env m r = true → (parseQuery m env r).isSome = true by
    exact ⟨n, h' n raw h⟩
  intro m
  induction m with
  | zero => intro r hr; simp [chainExitsFrom] at hr
  | succ m ih =>
    intro r hr
    rw [chainExitsFrom] at hr
    rw [parseQuery]
    rcases hu : isUrl (trimS r) with _ | _
    · simp only [hu, Bool.false_eq_true, if_false] at hr ⊢
      rcases hl : lookupStore env.commands (trimS r) with _ | cmd
      · simp [hl]
      · simp only [hl] at hr ⊢
        rcases hc : cmd.command with _ | t
        · simp [hc]
        · simp only [hc] at hr ⊢
          exact ih t hr
    · simp [hu]

/-- Witness for the amended C5: the alias `x` redirects to the built-in
`g`, whose entry has no redirection, so the chain exits in two steps and
resolution terminates. -/
theorem c5_redirection_terminates_witness :
    chainExitsFrom aliasEnv 2 "x" = true ∧ Terminates aliasEnv "x" :=
  ⟨by decide, c5_redirection_terminates_amended aliasEnv "x" 2 (by decide)⟩

/-- C6: the claim fails on the create path. `createNewShortcut` checks the
raw field values for truthiness instead of the trimmed ones, so a
whitespace-only key — empty after trimming — passes validation and the
store is mutated and persisted with the entry under the raw key `" "`.
The edit path (`saveEditedShortcut`), which validates the trimmed values,
rejects the same inputs as specified. -/
theorem c6_untrimmed_create_accepted :
    trimS " " = "" ∧
    createNewShortcut defaultCommands ⟨" ", "Example", "example.com"⟩ false =
      some (defaultCommands ++ [(" ", { name := "Example", url := "https://example.com" })]) ∧
    saveEditedShortcut defaultCommands "g"
      { name := "Gmail", url := "https://mail.google.com/mail/u/0/#inbox" }
      ⟨" ", "Example", "example.com"⟩ false = none := by
  refine ⟨by decide, ?_, by decide⟩
  decide

/-- C7 counterexample: from the reachable first-run state (no persisted
entries, `CONFIG.openLinksInNewTab` defaulting to `true`), exporting and
re-importing the snapshot flips `openLinksInNewTab` to `false`: the export
substitutes `"current"` for the absent `tabBehavior` entry and the import
applies it. -/
theorem c7_roundtrip_counterexample :
    freshAppState.openLinksInNewTab = true ∧
    (handleImportFile freshAppState (exportConfig freshAppState)).openLinksInNewTab
      = false := by
  exact ⟨rfl, rfl⟩

/-- C7 amended: the import of an exported snapshot restores the store
(keys, values and order) and the configuration exactly, provided the
theme, tab-behavior and search-engine entries are all persisted with their
standard values, the in-memory config is coherent with them (as
`CONFIG.init()` makes it), and the store is a fixed point of the JS object
key-enumeration order — true in particular when no key is integer-like,
and false for a store where a numeric key such as 1 was added after
string keys, which the round trip reorders to the front. For states
missing a persisted entry, the export substitutes a default which is then
applied by the import. -/
theorem c7_roundtrip_amended (st : AppState) (t b s : String)
    (hth : st.lsTheme = some t) (htv : t ∈ ["system", "dark", "light", "void"])
    (htb : st.lsTab = some b) (hbv : b ∈ ["new", "current"])
    (hse : st.lsEngine = some s) (hsv : s ∈ ["google", "duckduckgo"])
    (hopen : st.openLinksInNewTab = decide (b = "new"))
    (heng : st.defaultSearchEngine = s)
    (htmpl : st.defaultSearchTemplate = searchEngineTemplates s)
    (hord : jsObjectEntries st.commands = st.commands) :
    handleImportFile st (exportConfig st) = st := by
  obtain ⟨lsT, lsB, lsE, cmds, opn, eng, tmpl⟩ := st
  simp only at hth htb hse hopen heng htmpl hord
  subst hth htb hse hopen heng htmpl
  fin_cases htv <;> fin_cases hbv <;> fin_cases hsv <;>
    simp [handleImportFile, exportConfig, searchEngineTemplates, validThemes, hord]

/-- Witness for the amended C7 at a fully persisted state over the
built-in store (none of whose keys is integer-like). -/
theorem c7_roundtrip_witness :
    handleImportFile richAppState (exportConfig richAppState) = richAppState :=
  c7_roundtrip_amended richAppState "void" "new" "duckduckgo"
    rfl (by decide) rfl (by decide) rfl (by decide) rfl rfl rfl (by decide)

/-- C8: a persisted shortcut document that is present but unparseable
(`JSON.parse` throws, modelled by the parse function returning `none`)
leaves the in-memory store unchanged at the built-in defaults and writes
nothing back: the parse error is raised before `COMMANDS.clear()` and is
caught and only logged. -/
theorem c8_malformed_persisted (parse : String → Option (List (String × Command)))
    (s : String) (hparse : parse s = none) :
    loadCommands (some s) parse defaultCommands = (defaultCommands, none) := by
  by_cases hs : s = "" <;> simp [loadCommands, hs, hparse]

/-- Witness for C8 at a concrete unparseable document. -/
theorem c8_malformed_persisted_witness :
    loadCommands (some "not json") (fun _ => none) defaultCommands
      = (defaultCommands, none) :=
  c8_malformed_persisted (fun _ => none) "not json" rfl

/-- C9 counterexample: the source compares each external item to
`search.toLowerCase()` without lowercasing the item
(`item.phrase === search.toLowerCase()`), so an item that equals the raw
search text under case-insensitive comparison but contains an uppercase
letter — here the item `"Cats"` for the search `"Cats"` — is NOT excluded,
contradicting the claim. -/
theorem c9_case_insensitive_counterexample :
    collectSuggestions "Cats" ["Cats"] = ["Cats"] ∧ toLowerS "Cats" = "cats" := by
  exact ⟨rfl, rfl⟩

/-- C9 amended: an external item is excluded iff it is exactly equal to
the lowercased search text; items that match the search text only up to
case are kept. -/
theorem c9_exclusion_amended (search item : String) (res : List String) :
    item ∈ collectSuggestions search res ↔ item ∈ res ∧ item ≠ toLowerS search := by
  induction res with
  | nil => simp [collectSuggestions]
  | cons p rest ih =>
    by_cases hp : p = toLowerS search
    · rw [collectSuggestions, if_pos hp, ih, List.mem_cons]
      constructor
      · exact fun h => ⟨Or.inr h.1, h.2⟩
      · rintro ⟨h | h, hne⟩
        · exact absurd (h.trans hp) hne
        · exact ⟨h, hne⟩
    · rw [collectSuggestions, if_neg hp, List.mem_cons, List.mem_cons, ih]
      constructor
      · rintro (rfl | h)
        · exact ⟨Or.inl rfl, hp⟩
        · exact ⟨Or.inr h.1, h.2⟩
      · rintro ⟨rfl | h, hne⟩
        · exact Or.inl rfl
        · exact Or.inr ⟨h, hne⟩

/-- A successful lookup comes from an entry of the store. -/
theorem lookupStore_mem {l : Store} {k : String} {c : Command}
    (h : lookupStore l k = some c) : (k, c) ∈ l := by
  induction l with
  | nil => simp [lookupStore] at h
  | cons kv rest ih =>
    obtain ⟨k', v⟩ := kv
    by_cases e : k' = k
    · subst e
      rw [lookupStore, if_pos rfl] at h
      obtain rfl : v = c := by injection h
      exact List.mem_cons_self _ _
    · rw [lookupStore, if_neg e] at h
      exact List.mem_cons_of_mem _ (ih h)

/-- Lookup commutes with the entry-wise migration map (which preserves
keys). -/
theorem lookupStore_map_migrate {l : Store} {k : String} {c : Command}
    (h : lookupStore l k = some c) :
    lookupStore (l.map migrateEntry) k = some ((migrateEntry (k, c)).2) := by
  induction l with
  | nil => simp [lookupStore] at h
  | cons kv rest ih =>
    obtain ⟨k', v⟩ := kv
    by_cases e : k' = k
    · subst e
      rw [lookupStore, if_pos rfl] at h
      obtain rfl : v = c := by injection h
      simp only [List.map_cons, migrateEntry]
      rw [lookupStore, if_pos rfl]
    · rw [lookupStore, if_neg e] at h
      simp only [List.map_cons]
      have hhead : migrateEntry (k', v) = (k', (migrateEntry (k', v)).2) := rfl
      rw [hhead, lookupStore, if_neg e]
      exact ih h

/-- C10: loading a parseable persisted document is not a verbatim restore:
an entry under key `d` (resp. `gh`) lacking a `searchTemplate` gets the
fixed template `/search/work?path=%2F&query={}` (resp. `/search?q={}`)
added, and whenever this happens the amended document is immediately
written back to storage. -/
theorem c10_load_migration (parse : String → Option (List (String × Command)))
    (s : String) (L : List (String × Command)) (store : Store)
    (k : String) (c : Command)
    (hs : s ≠ "") (hp : parse s = some L)
    (hk : k = "d" ∨ k = "gh")
    (hL : lookupStore L k = some c) (hc : c.searchTemplate = none) :
    lookupStore (loadCommands (some s) parse store).1 k =
      some { c with searchTemplate := some (.single (migrationTemplate k)) } ∧
    (loadCommands (some s) parse store).2 = some (loadCommands (some s) parse store).1 := by
  have hmig : (migrateEntry (k, c)).2 =
      { c with searchTemplate := some (.single (migrationTemplate k)) } := by
    rcases hk with rfl | rfl
    · simp [migrateEntry, migrationTemplate, hc]
    · simp [migrateEntry, migrationTemplate, hc]
  have hany : L.any needsMigration = true :=
    List.any_eq_true.mpr
      ⟨(k, c), lookupStore_mem hL,
        by rcases hk with rfl | rfl <;> simp [needsMigration, hc]⟩
  simp only [loadCommands, if_neg hs, hp]
  refine ⟨?_, by rw [hany]; rfl⟩
  rw [lookupStore_map_migrate hL, hmig]

/-- Witness for C10: a persisted document holding a pre-migration `gh`
entry. -/
theorem c10_load_migration_witness :
    lookupStore (loadCommands (some "doc")
        (fun _ => some [("gh", { name := "GitHub", url := "https://github.com/" })])
        defaultCommands).1 "gh" =
      some { name := "GitHub", url := "https://github.com/",
             searchTemplate := some (.single "/search?q={}") } ∧
    (loadCommands (some "doc")
        (fun _ => some [("gh", { name := "GitHub", url := "https://github.com/" })])
        defaultCommands).2 =
      some (loadCommands (some "doc")
        (fun _ => some [("gh", { name := "GitHub", url := "https://github.com/" })])
        defaultCommands).1 := by
  have h := c10_load_migration
    (fun _ => some [("gh", { name := "GitHub", url := "https://github.com/" })])
    "doc" [("gh", { name := "GitHub", url := "https://github.com/" })]
    defaultCommands "gh" { name := "GitHub", url := "https://github.com/" }
    (by decide) rfl (Or.inr rfl) (by decide) rfl
  exact ⟨h.1.trans (by decide), h.2⟩
